import Mathlib

/-!
Shallow embedding of the Elevator-API dispatch engine and elevator state
machine (src/src/services/elevatorService.js, the scheduling service and the
Sequelize models), together with proofs about the frozen claims.

Floors, travel times and priorities are JS numbers used as integers by the
source, so they are modelled as Int; the LOOK efficiency score multiplies by
0.8, 0.7 and 0.1, so it is modelled as Rat.  The stable Array.prototype.sort
of V8 is modelled by List.insertionSort with the relation "comparator result
is not positive", which agrees with any stable comparison sort for the
comparators used by the source.
-/

set_option allowUnsafeReducibility true

attribute [semireducible] Rat.mul Rat.sub Rat.add Rat.neg Rat.div Rat.inv Rat.blt

namespace ElevatorAPI

/-- ELEVATOR_STATES from src/src/utils/constants.js. -/
inductive ElevState
  | idle | movingUp | movingDown | doorOpening | doorOpen | doorClosing
  | maintenance | outOfService
deriving DecidableEq

/-- DIRECTIONS from src/src/utils/constants.js. -/
inductive Direction
  | up | down | none
deriving DecidableEq

/-- DOOR_STATES from src/src/utils/constants.js (OPEN is spelled opened). -/
inductive DoorState
  | opened | closed | opening | closing
deriving DecidableEq

/-- FloorRequest status enum from the FloorRequest model. -/
inductive ReqStatus
  | pending | assigned | inProgress | completed | cancelled
deriving DecidableEq

/-- SCHEDULING_ALGORITHMS plus the default branch of assignElevator, which
runs the nearest-elevator strategy for any other configured name. -/
inductive SchedulingAlgorithm
  | scan | look | nearest
deriving DecidableEq

/-- Error outcomes of the service layer (thrown Error messages and the
TypeError raised by calling a method that is not a function). -/
inductive ErrorKind
  | invalidFloor | sameFloor | duplicateRequest | noAvailableElevators
  | noSuitableElevator | unitNotFound | typeError
deriving DecidableEq

/-- One element of an elevator instance's in-memory queue, as pushed by
ElevatorService.callElevator. -/
structure QueueEntry where
  id : Nat
  floor : Int
  direction : Direction
  priority : Int
  destinationFloor : Option Int
deriving DecidableEq

/-- A FloorRequest row of the request ledger (the FloorRequest model); the
metadata destinationFloor is lifted to a field. -/
structure Request where
  id : Nat
  floor : Int
  direction : Direction
  elevatorId : Option Nat
  priority : Int
  status : ReqStatus
  requestedAt : Int
  assignedAt : Option Int
  completedAt : Option Int
  waitTime : Option Int
  destinationFloor : Option Int
deriving DecidableEq

/-- An in-memory elevator instance as built by initializeElevator. -/
structure Elevator where
  id : Nat
  number : Int
  currentFloor : Int
  targetFloor : Option Int
  state : ElevState
  direction : Direction
  doorState : DoorState
  isActive : Bool
  queue : List QueueEntry
  isMoving : Bool
deriving DecidableEq

/-- config.elevator from src config. -/
structure Config where
  totalFloors : Int
  floorTravelTime : Int
  doorOperationTime : Int
deriving DecidableEq

/-- The ElevatorService singleton state: activeElevators, movementTimers
(the set of elevator ids with a pending movement timeout), the FloorRequest
table, the configured scheduling algorithm and a fresh primary-key source. -/
structure Coordinator where
  elevators : List Elevator
  movementTimers : List Nat
  ledger : List Request
  algorithm : SchedulingAlgorithm
  nextId : Nat
deriving DecidableEq

/-- Math.abs distance between two floors. -/
def floorDist (a b : Int) : Nat := (a - b).natAbs

/-- Distance of an elevator from a target floor
(Math.abs(elevator.currentFloor - targetFloor)). -/
def distTo (e : Elevator) (targetFloor : Int) : Nat :=
  floorDist e.currentFloor targetFloor

/-- The loop body of SchedulingService.findClosestElevator: keep the closer
of the accumulator and the candidate, strictly (ties keep the accumulator). -/
def closerStep (targetFloor : Int) (closest cand : Elevator) : Elevator :=
  if distTo cand targetFloor < distTo closest targetFloor then cand else closest

/-- SchedulingService.findClosestElevator: linear scan seeded with the first
element, replacing it only on strictly smaller distance. -/
def findClosestElevator (elevators : List Elevator) (targetFloor : Int) :
    Option Elevator :=
  match elevators with
  | [] => Option.none
  | e :: _ => some (elevators.foldl (closerStep targetFloor) e)

/-- SchedulingService.nearestElevatorAlgorithm. -/
def nearestElevatorAlgorithm (req : Request) (available : List Elevator) :
    Option Elevator :=
  findClosestElevator available req.floor

theorem closerStep_eq (t : Int) (acc x : Elevator) :
    closerStep t acc x = if distTo x t < distTo acc t then x else acc := rfl

theorem foldl_closerStep_mem (t : Int) :
    ∀ (l : List Elevator) (acc : Elevator),
      l.foldl (closerStep t) acc ∈ acc :: l := by
  intro l
  induction l with
  | nil => intro acc; simp
  | cons x xs ih =>
    intro acc
    have h := ih (closerStep t acc x)
    simp only [List.foldl_cons]
    have hcs : closerStep t acc x = x ∨ closerStep t acc x = acc := by
      rw [closerStep_eq]; split <;> simp
    rcases List.mem_cons.mp h with h1 | h1
    · rw [h1]
      rcases hcs with h2 | h2 <;> rw [h2] <;> simp
    · simp [h1]

theorem foldl_closerStep_min (t : Int) :
    ∀ (l : List Elevator) (acc : Elevator),
      distTo (l.foldl (closerStep t) acc) t ≤ distTo acc t ∧
      ∀ e ∈ l, distTo (l.foldl (closerStep t) acc) t ≤ distTo e t := by
  intro l
  induction l with
  | nil => intro acc; simp
  | cons x xs ih =>
    intro acc
    have h := ih (closerStep t acc x)
    simp only [List.foldl_cons]
    by_cases hd : distTo x t < distTo acc t
    · have hstep : closerStep t acc x = x := by rw [closerStep_eq]; simp [hd]
      rw [hstep] at h ⊢
      refine ⟨le_trans h.1 (le_of_lt hd), ?_⟩
      intro e he
      rcases List.mem_cons.mp he with h1 | h1
      · rw [h1]; exact h.1
      · exact h.2 e h1
    · have hstep : closerStep t acc x = acc := by rw [closerStep_eq]; simp [hd]
      rw [hstep] at h ⊢
      refine ⟨h.1, ?_⟩
      intro e he
      rcases List.mem_cons.mp he with h1 | h1
      · rw [h1]; exact le_trans h.1 (Nat.le_of_not_lt hd)
      · exact h.2 e h1

theorem foldl_closerStep_tie (t : Int) :
    ∀ (l : List Elevator) (acc : Elevator),
      (acc :: l).Pairwise (fun a b => a.number < b.number) →
      ∀ e ∈ acc :: l,
        distTo e t = distTo (l.foldl (closerStep t) acc) t →
        (l.foldl (closerStep t) acc).number ≤ e.number := by
  intro l
  induction l with
  | nil =>
    intro acc _ e he _
    simp only [List.foldl_nil]
    rcases List.mem_singleton.mp he with rfl
    exact le_refl _
  | cons x xs ih =>
    intro acc hsort e he heq
    have hmin := foldl_closerStep_min t (x :: xs) acc
    simp only [List.foldl_cons] at heq ⊢
    have hsx : (x :: xs).Pairwise (fun a b => a.number < b.number) :=
      (List.pairwise_cons.mp hsort).2
    have haxs : (acc :: xs).Pairwise (fun a b => a.number < b.number) := by
      have hsub : (acc :: xs).Sublist (acc :: x :: xs) :=
        (List.sublist_cons_self x xs).cons₂ acc
      exact hsort.sublist hsub
    have haccx : acc.number < x.number :=
      (List.pairwise_cons.mp hsort).1 x (List.mem_cons_self x xs)
    by_cases hd : distTo x t < distTo acc t
    · have hstep : closerStep t acc x = x := by rw [closerStep_eq]; simp [hd]
      rw [hstep] at heq ⊢
      rcases List.mem_cons.mp he with h1 | h1
      · -- e = acc cannot tie: the result is at most as far as x, strictly
        -- closer than acc
        exfalso
        have hle : distTo (xs.foldl (closerStep t) x) t ≤ distTo x t :=
          (foldl_closerStep_min t xs x).1
        rw [h1] at heq
        omega
      · exact ih x hsx e h1 heq
    · have hstep : closerStep t acc x = acc := by rw [closerStep_eq]; simp [hd]
      rw [hstep] at heq ⊢
      have hle_acc : distTo (xs.foldl (closerStep t) acc) t ≤ distTo acc t :=
        (foldl_closerStep_min t xs acc).1
      rcases List.mem_cons.mp he with h1 | h1
      · exact ih acc haxs e (h1 ▸ List.mem_cons_self acc xs) heq
      · rcases List.mem_cons.mp h1 with h2 | h2
        · -- e = x ties only if acc also ties; the result then sits below acc
          have hax : distTo acc t ≤ distTo x t := Nat.le_of_not_lt hd
          have hacc_tie : distTo acc t = distTo (xs.foldl (closerStep t) acc) t := by
            rw [h2] at heq; omega
          have := ih acc haxs acc (List.mem_cons_self acc xs) hacc_tie
          rw [h2]
          omega
        · exact ih acc haxs e (List.mem_cons_of_mem acc h2) heq

/-- Packaged argmin facts about findClosestElevator on a list sorted by
strictly increasing elevator number. -/
theorem findClosestElevator_spec (es : List Elevator) (t : Int)
    (hne : es ≠ [])
    (hsort : es.Pairwise (fun a b => a.number < b.number)) :
    ∃ r, findClosestElevator es t = some r ∧ r ∈ es ∧
      (∀ e ∈ es, distTo r t ≤ distTo e t) ∧
      (∀ e ∈ es, distTo e t = distTo r t → r.number ≤ e.number) := by
  match es, hne with
  | e :: rest, _ =>
    have hself : closerStep t e e = e := by
      rw [closerStep_eq]; simp
    have hfold : (e :: rest).foldl (closerStep t) e =
        rest.foldl (closerStep t) e := by
      simp only [List.foldl_cons, hself]
    refine ⟨(e :: rest).foldl (closerStep t) e, rfl, ?_, ?_, ?_⟩
    · rw [hfold]
      exact foldl_closerStep_mem t rest e
    · intro x hx
      rw [hfold]
      have h := foldl_closerStep_min t rest e
      rcases List.mem_cons.mp hx with h1 | h1
      · exact h1 ▸ h.1
      · exact h.2 x h1
    · intro x hx heq
      rw [hfold] at heq ⊢
      exact foldl_closerStep_tie t rest e hsort x hx heq

/-- Head of a stable sort by a comparator that agrees with a numeric key on
the elements of the list: the head is a member attaining the minimal key. -/
theorem head_insertionSort_min {α β : Type} [LinearOrder β]
    (key : α → β) (r : α → α → Prop) [DecidableRel r] :
    ∀ (l : List α), (∀ a ∈ l, ∀ b ∈ l, (r a b ↔ key a ≤ key b)) →
      ∀ h, (List.insertionSort r l).head? = some h →
        h ∈ l ∧ ∀ e ∈ l, key h ≤ key e := by
  intro l
  induction l with
  | nil => intro _ h hh; simp [List.insertionSort] at hh
  | cons x xs ih =>
    intro hpt h hh
    have hpt2 : ∀ a ∈ xs, ∀ b ∈ xs, (r a b ↔ key a ≤ key b) := fun a ha b hb =>
      hpt a (List.mem_cons_of_mem x ha) b (List.mem_cons_of_mem x hb)
    rw [List.insertionSort] at hh
    rcases hs : List.insertionSort r xs with _ | ⟨y, ys⟩
    · have hxs : xs = [] := by
        have hperm := List.perm_insertionSort r xs
        rw [hs] at hperm
        exact (List.Perm.nil_eq hperm).symm
      rw [hs] at hh
      simp only [List.orderedInsert, List.head?] at hh
      have hhx : x = h := Option.some.inj hh
      subst hhx
      subst hxs
      exact ⟨List.mem_singleton_self x, by intro e he; rw [List.mem_singleton.mp he]⟩
    · have hy : y ∈ xs := by
        have hperm := List.perm_insertionSort r xs
        rw [hs] at hperm
        exact hperm.mem_iff.mp (List.mem_cons_self y ys)
      have ihy := ih hpt2 y (by rw [hs]; rfl)
      rw [hs] at hh
      rw [List.orderedInsert] at hh
      by_cases hr : r x y
      · rw [if_pos hr] at hh
        simp only [List.head?] at hh
        have hhx : x = h := Option.some.inj hh
        subst hhx
        have hxy : key x ≤ key y :=
          (hpt x (List.mem_cons_self x xs) y (List.mem_cons_of_mem x hy)).mp hr
        refine ⟨List.mem_cons_self x xs, ?_⟩
        intro e he
        rcases List.mem_cons.mp he with h1 | h1
        · rw [h1]
        · exact le_trans hxy (ihy.2 e h1)
      · rw [if_neg hr] at hh
        simp only [List.head?] at hh
        have hhy : y = h := Option.some.inj hh
        subst hhy
        have hyx : key y ≤ key x := by
          have hiff := hpt x (List.mem_cons_self x xs) y (List.mem_cons_of_mem x hy)
          exact le_of_not_le (fun hc => hr (hiff.mpr hc))
        refine ⟨List.mem_cons_of_mem x ihy.1, ?_⟩
        intro e he
        rcases List.mem_cons.mp he with h1 | h1
        · rw [h1]; exact hyx
        · exact ihy.2 e h1

/-- SchedulingService.willElevatorEventuallyReach: for SCAN the elevator will
eventually reach all floors, so it always reports true. -/
def willElevatorEventuallyReach (e : Elevator) (requestFloor : Int)
    (requestDirection : Direction) : Bool := true

/-- The filter of SchedulingService.scanAlgorithm: idle elevators are
candidates, as are elevators moving in the request direction that have not
yet passed the request floor. -/
def scanCandidate (req : Request) (e : Elevator) : Bool :=
  if e.direction = Direction.none then true
  else if req.direction = Direction.up ∧ e.direction = Direction.up then
    decide (e.currentFloor ≤ req.floor)
  else if req.direction = Direction.down ∧ e.direction = Direction.down then
    decide (req.floor ≤ e.currentFloor)
  else false

/-- SchedulingService.calculateScanTime. -/
def calculateScanTime (cfg : Config) (e : Elevator) (requestFloor : Int)
    (requestDirection : Direction) : Int :=
  match e.direction with
  | Direction.none =>
    (floorDist requestFloor e.currentFloor : Int) * cfg.floorTravelTime
  | Direction.up =>
    if requestDirection = Direction.up ∧ e.currentFloor ≤ requestFloor then
      (requestFloor - e.currentFloor) * cfg.floorTravelTime
    else
      (cfg.totalFloors - e.currentFloor) * cfg.floorTravelTime +
        (cfg.totalFloors - requestFloor) * cfg.floorTravelTime
  | Direction.down =>
    if requestDirection = Direction.down ∧ requestFloor ≤ e.currentFloor then
      (e.currentFloor - requestFloor) * cfg.floorTravelTime
    else
      (e.currentFloor - 1) * cfg.floorTravelTime +
        (requestFloor - 1) * cfg.floorTravelTime

/-- The comparator of the SCAN fallback sort, as a relation: elevator a sorts
no later than b when its scan time is not larger. -/
def scanTimeLE (cfg : Config) (requestFloor : Int)
    (requestDirection : Direction) (a b : Elevator) : Prop :=
  calculateScanTime cfg a requestFloor requestDirection ≤
    calculateScanTime cfg b requestFloor requestDirection

instance (cfg : Config) (f : Int) (d : Direction) :
    DecidableRel (scanTimeLE cfg f d) := fun a b => by
  unfold scanTimeLE; infer_instance

/-- SchedulingService.scanAlgorithm. -/
def scanAlgorithm (cfg : Config) (req : Request) (available : List Elevator) :
    Option Elevator :=
  let sameDirection := available.filter (scanCandidate req)
  if sameDirection.isEmpty then
    let suitable := available.filter
      (fun e => willElevatorEventuallyReach e req.floor req.direction)
    if suitable.isEmpty then findClosestElevator available req.floor
    else
      (List.insertionSort (scanTimeLE cfg req.floor req.direction)
        suitable).head?
  else findClosestElevator sameDirection req.floor

/-- Statuses counted as active by the duplicate check, the per-elevator load
query and the partial unique index (PENDING, ASSIGNED, IN_PROGRESS). -/
def isActiveStatus : ReqStatus → Bool
  | ReqStatus.pending => true
  | ReqStatus.assigned => true
  | ReqStatus.inProgress => true
  | _ => false

/-- The up/down floor lists of one elevator, as produced by
SchedulingService.getElevatorRequestLoads. -/
structure Load where
  upRequests : List Int
  downRequests : List Int
deriving DecidableEq

/-- SchedulingService.getElevatorRequestLoads for a single elevator: active
ledger rows assigned to it, split by direction and mapped to floors. -/
def getLoad (ledger : List Request) (elevatorId : Nat) : Load :=
  let reqs := ledger.filter
    (fun r => decide (r.elevatorId = some elevatorId) && isActiveStatus r.status)
  { upRequests :=
      (reqs.filter (fun r => decide (r.direction = Direction.up))).map (·.floor)
    downRequests :=
      (reqs.filter (fun r => decide (r.direction = Direction.down))).map (·.floor) }

/-- SchedulingService.calculateLookTime. -/
def calculateLookTime (cfg : Config) (e : Elevator) (requestFloor : Int)
    (requestDirection : Direction) (load : Load) : Int :=
  match e.direction with
  | Direction.none =>
    (floorDist requestFloor e.currentFloor : Int) * cfg.floorTravelTime
  | Direction.up =>
    let upReqs := List.insertionSort (fun a b => a ≤ b)
      (load.upRequests.filter (fun f => decide (e.currentFloor ≤ f)))
    if requestDirection = Direction.up ∧ e.currentFloor ≤ requestFloor then
      match upReqs.find? (fun f => decide (requestFloor ≤ f)) with
      | some fl => (fl - e.currentFloor) * cfg.floorTravelTime
      | Option.none => (requestFloor - e.currentFloor) * cfg.floorTravelTime
    else
      let maxUpFloor := (upReqs.max?).getD e.currentFloor
      (maxUpFloor - e.currentFloor) * cfg.floorTravelTime +
        (maxUpFloor - requestFloor) * cfg.floorTravelTime
  | Direction.down =>
    let downReqs := List.insertionSort (fun a b => b ≤ a)
      (load.downRequests.filter (fun f => decide (f ≤ e.currentFloor)))
    if requestDirection = Direction.down ∧ requestFloor ≤ e.currentFloor then
      match downReqs.find? (fun f => decide (f ≤ requestFloor)) with
      | some fl => (e.currentFloor - fl) * cfg.floorTravelTime
      | Option.none => (e.currentFloor - requestFloor) * cfg.floorTravelTime
    else
      let minDownFloor := (downReqs.min?).getD e.currentFloor
      (e.currentFloor - minDownFloor) * cfg.floorTravelTime +
        (requestFloor - minDownFloor) * cfg.floorTravelTime

/-- SchedulingService.calculateLookEfficiency, with the multiplications in
source order: the 20 percent discount also applies to idle elevators
(direction NONE), then the per-request load penalty, then the 30 percent
en-route discount. -/
def calculateLookEfficiency (e : Elevator) (requestFloor : Int)
    (requestDirection : Direction) (load : Load) : Rat :=
  let distance : Rat := (floorDist requestFloor e.currentFloor : Rat)
  let e1 : Rat :=
    if e.direction = requestDirection ∨ e.direction = Direction.none then
      distance * (8 / 10)
    else distance
  let totalLoad : Rat :=
    ((load.upRequests.length + load.downRequests.length : Nat) : Rat)
  let e2 : Rat := e1 * (1 + totalLoad * (1 / 10))
  if e.direction = Direction.up ∧ requestDirection = Direction.up ∧
      e.currentFloor < requestFloor then
    e2 * (7 / 10)
  else if e.direction = Direction.down ∧ requestDirection = Direction.down ∧
      requestFloor < e.currentFloor then
    e2 * (7 / 10)
  else e2

/-- One record of the suitableElevators array built by lookAlgorithm. -/
structure Scored where
  elevator : Elevator
  efficiency : Rat
  estimatedTime : Int
deriving DecidableEq

/-- The lookAlgorithm comparator, as a relation: when efficiencies are within
0.1 of each other the earlier estimated time sorts first, otherwise the
smaller efficiency does. -/
def lookBefore (a b : Scored) : Prop :=
  if |a.efficiency - b.efficiency| < 1 / 10 then a.estimatedTime ≤ b.estimatedTime
  else a.efficiency ≤ b.efficiency

instance : DecidableRel lookBefore := fun a b => by
  unfold lookBefore; infer_instance

/-- The Scored record lookAlgorithm builds for one available elevator. -/
def scoreElevator (cfg : Config) (req : Request) (ledger : List Request)
    (e : Elevator) : Scored :=
  let load := getLoad ledger e.id
  { elevator := e
    efficiency := calculateLookEfficiency e req.floor req.direction load
    estimatedTime := calculateLookTime cfg e req.floor req.direction load }

/-- SchedulingService.lookAlgorithm: score every available elevator, sort by
the comparator, return the first (or the first available elevator if the
scored list is empty). -/
def lookAlgorithm (cfg : Config) (req : Request) (available : List Elevator)
    (ledger : List Request) : Option Elevator :=
  let suitable := available.map (scoreElevator cfg req ledger)
  match (List.insertionSort lookBefore suitable).head? with
  | some s => some s.elevator
  | Option.none => available.head?

/-- ElevatorHelper.isMovingTowards from src/src/utils/helpers.js. -/
def isMovingTowards (elevatorFloor : Int) (elevatorDirection : Direction)
    (targetFloor : Int) : Bool :=
  match elevatorDirection with
  | Direction.none => false
  | Direction.up => decide (elevatorFloor ≤ targetFloor)
  | Direction.down => decide (targetFloor ≤ elevatorFloor)

/-- ElevatorService.calculateFloorOptimality: distance, with a 1000 penalty
when the floor lies against the current direction of travel. -/
def calculateFloorOptimality (e : Elevator) (targetFloor : Int) : Int :=
  let distance : Int := (floorDist targetFloor e.currentFloor : Int)
  if e.direction ≠ Direction.none then
    if isMovingTowards e.currentFloor e.direction targetFloor then distance
    else distance + 1000
  else distance

/-- The queue comparator of callElevator, as a relation: higher priority
first, ties by floor optimality. -/
def queueLE (e : Elevator) (a b : QueueEntry) : Prop :=
  b.priority < a.priority ∨
    (a.priority = b.priority ∧
      calculateFloorOptimality e a.floor ≤ calculateFloorOptimality e b.floor)

instance (e : Elevator) : DecidableRel (queueLE e) := fun a b => by
  unfold queueLE; infer_instance

/-- ElevatorService.startMovingToFloor: set target, direction from the sign
of (targetFloor - currentFloor) with equality mapping to DOWN, and the
matching moving state. -/
def startMovingToFloor (e : Elevator) (targetFloor : Int) : Elevator :=
  let direction :=
    if e.currentFloor < targetFloor then Direction.up else Direction.down
  { e with
    targetFloor := some targetFloor
    direction := direction
    state :=
      if direction = Direction.up then ElevState.movingUp
      else ElevState.movingDown
    isMoving := false }

/-- ElevatorService.arriveAtFloor, elevator part: land on the target floor,
clear it, begin opening the doors.  The source reads elevator.targetFloor
unguarded; the movement timer that invokes this callback is only installed
while the unit is in a moving state, where targetFloor is always set. -/
def arriveAtFloorElev (e : Elevator) : Elevator :=
  { e with
    currentFloor := e.targetFloor.getD e.currentFloor
    targetFloor := Option.none
    state := ElevState.doorOpening
    doorState := DoorState.opening
    isMoving := false }

/-- The timeout body of processDoorOpeningState: doors fully open. -/
def finishDoorOpening (e : Elevator) : Elevator :=
  { e with state := ElevState.doorOpen, doorState := DoorState.opened }

/-- ElevatorService.startClosingDoors. -/
def startClosingDoors (e : Elevator) : Elevator :=
  { e with state := ElevState.doorClosing, doorState := DoorState.closing }

/-- The timeout body of processDoorClosingState, elevator part: back to
IDLE, doors closed, direction reset, head of the queue popped. -/
def finishDoorClosingElev (e : Elevator) : Elevator :=
  { e with
    state := ElevState.idle
    doorState := DoorState.closed
    direction := Direction.none
    queue := e.queue.tail }

/-- ElevatorService.emergencyStop, elevator part: OUT_OF_SERVICE, direction
reset, deactivated.  targetFloor and the queue are left untouched. -/
def emergencyStopElev (e : Elevator) : Elevator :=
  { e with
    state := ElevState.outOfService
    direction := Direction.none
    isMoving := false
    isActive := false }

/-- ElevatorService.setMaintenance, elevator part: MAINTENANCE, deactivated,
queue cleared.  direction and targetFloor are left untouched. -/
def setMaintenanceElev (e : Elevator) : Elevator :=
  { e with
    state := ElevState.maintenance
    isActive := false
    queue := [] }

/-- Lookup in the activeElevators map. -/
def getElevator (c : Coordinator) (elevatorId : Nat) : Option Elevator :=
  c.elevators.find? (fun e => decide (e.id = elevatorId))

/-- Mutation of the elevator instance stored under an id. -/
def updateElevatorById (c : Coordinator) (elevatorId : Nat)
    (f : Elevator → Elevator) : Coordinator :=
  { c with elevators :=
      c.elevators.map (fun e => if e.id = elevatorId then f e else e) }

/-- ElevatorService.emergencyStop: unknown unit is an error; otherwise the
pending movement timer is cancelled and the unit is stopped in place. -/
def emergencyStop (c : Coordinator) (elevatorId : Nat) :
    Except ErrorKind Coordinator :=
  match getElevator c elevatorId with
  | Option.none => Except.error ErrorKind.unitNotFound
  | some _ =>
    let c1 := { c with movementTimers :=
      c.movementTimers.filter (fun i => decide (i ≠ elevatorId)) }
    Except.ok (updateElevatorById c1 elevatorId emergencyStopElev)

/-- A pending movement timer fires: only possible while the timeout is still
registered (clearTimeout removes it), and it performs arriveAtFloor. -/
def fireMovementTimer (c : Coordinator) (elevatorId : Nat) :
    Option Coordinator :=
  if c.movementTimers.contains elevatorId then
    some (updateElevatorById
      { c with movementTimers :=
          c.movementTimers.filter (fun i => decide (i ≠ elevatorId)) }
      elevatorId arriveAtFloorElev)
  else Option.none

/-- ElevatorService.setMaintenance: unknown unit is an error; otherwise the
in-memory unit is mutated (queue dropped without any ledger write).  The
final statement of the source reads setMaintenance off the promise returned
by Elevator.findByPk, which raises a TypeError after the mutation; the pair
carries the mutated state together with that outcome. -/
def setMaintenance (c : Coordinator) (elevatorId : Nat) :
    Coordinator × Except ErrorKind Unit :=
  match getElevator c elevatorId with
  | Option.none => (c, Except.error ErrorKind.unitNotFound)
  | some _ =>
    (updateElevatorById c elevatorId setMaintenanceElev,
      Except.error ErrorKind.typeError)

/-- FloorRequest.prototype.complete from the FloorRequest model: COMPLETED
with wait time equal to completion time minus request time. -/
def requestComplete (r : Request) (now : Int) : Request :=
  { r with
    status := ReqStatus.completed
    completedAt := some now
    waitTime := some (now - r.requestedAt) }

/-- ElevatorService.completeRequest: the source invokes complete on the
promise returned by FloorRequest.findByPk without awaiting it, which raises
a TypeError that the surrounding try/catch logs and swallows, so no ledger
row is ever updated. -/
def completeRequestService (ledger : List Request) (entry : QueueEntry) :
    List Request :=
  ledger

/-- The timeout body of processDoorClosingState on the coordinator: elevator
fields reset, head of the queue popped and handed to completeRequest. -/
def processDoorClosingFinish (c : Coordinator) (elevatorId : Nat) :
    Coordinator :=
  match getElevator c elevatorId with
  | Option.none => c
  | some e =>
    match e.queue with
    | [] => updateElevatorById c elevatorId finishDoorClosingElev
    | h :: _ =>
      { updateElevatorById c elevatorId finishDoorClosingElev with
        ledger := completeRequestService c.ledger h }

/-- The comparator of getNextRequests (ORDER BY priority DESC,
requestedAt ASC), as a relation. -/
def nextRequestLE (a b : Request) : Prop :=
  b.priority < a.priority ∨
    (a.priority = b.priority ∧ a.requestedAt ≤ b.requestedAt)

instance : DecidableRel nextRequestLE := fun a b => by
  unfold nextRequestLE; infer_instance

/-- SchedulingService.getNextRequests: up to five ASSIGNED or PENDING ledger
rows for the elevator, highest priority first then earliest request. -/
def getNextRequests (ledger : List Request) (elevatorId : Nat) :
    List QueueEntry :=
  let reqs := ledger.filter (fun r =>
    decide (r.elevatorId = some elevatorId) &&
      (decide (r.status = ReqStatus.assigned) ||
        decide (r.status = ReqStatus.pending)))
  ((List.insertionSort nextRequestLE reqs).take 5).map (fun r =>
    { id := r.id
      floor := r.floor
      direction := r.direction
      priority := r.priority
      destinationFloor := r.destinationFloor })

/-- Availability condition of getAvailableElevators: active and neither in
MAINTENANCE nor OUT_OF_SERVICE. -/
def isAvailableElevator (e : Elevator) : Bool :=
  e.isActive && !(decide (e.state = ElevState.maintenance)) &&
    !(decide (e.state = ElevState.outOfService))

/-- The relation of the ORDER BY elevatorNumber ASC clause. -/
def numberLE (a b : Elevator) : Prop := a.number ≤ b.number

instance : DecidableRel numberLE := fun a b => by
  unfold numberLE; infer_instance

/-- SchedulingService.getAvailableElevators over the coordinator state. -/
def getAvailableElevators (c : Coordinator) : List Elevator :=
  List.insertionSort numberLE (c.elevators.filter isAvailableElevator)

/-- SchedulingService.assignElevator: dispatch on the configured algorithm
over the available elevators (the switch default runs the nearest-elevator
strategy). -/
def assignElevator (cfg : Config) (c : Coordinator) (req : Request) :
    Except ErrorKind Nat :=
  let available := getAvailableElevators c
  if available.isEmpty then Except.error ErrorKind.noAvailableElevators
  else
    let selected :=
      match c.algorithm with
      | SchedulingAlgorithm.scan => scanAlgorithm cfg req available
      | SchedulingAlgorithm.look => lookAlgorithm cfg req available c.ledger
      | SchedulingAlgorithm.nearest => nearestElevatorAlgorithm req available
    match selected with
    | some e => Except.ok e.id
    | Option.none => Except.error ErrorKind.noSuitableElevator

/-- The Boolean matched by the duplicate check and by the partial unique
index unique_active_floor_direction. -/
def activeMatch (floor : Int) (direction : Direction) (r : Request) : Bool :=
  decide (r.floor = floor) && decide (r.direction = direction) &&
    isActiveStatus r.status

/-- The FloorRequest.findOne duplicate probe of callElevator. -/
def findActiveRequest (ledger : List Request) (floor : Int)
    (direction : Direction) : Option Request :=
  ledger.find? (activeMatch floor direction)

/-- Number of active rows for a (floor, direction) pair. -/
def countActive (ledger : List Request) (floor : Int)
    (direction : Direction) : Nat :=
  (ledger.filter (activeMatch floor direction)).length

/-- The deduplication invariant: at most one active request per
(floor, direction) pair. -/
def atMostOneActive (ledger : List Request) : Prop :=
  ∀ (floor : Int) (direction : Direction), countActive ledger floor direction ≤ 1

/-- The value returned by a successful callElevator (requestId and the
assigned elevator). -/
structure CallResult where
  requestId : Nat
  elevatorId : Nat
deriving DecidableEq

/-- ElevatorService.callElevator: validate floors, reject duplicates, create
the PENDING row, dispatch, mark the row ASSIGNED, and push plus re-sort the
assigned unit's queue.  The pair carries the coordinator state left behind
(errors after row creation leave the PENDING row in the ledger, as in the
source where the thrown dispatch error propagates after FloorRequest.create
has succeeded). -/
def callElevator (cfg : Config) (c : Coordinator) (fromFloor toFloor : Int)
    (priority : Int) (now : Int) : Coordinator × Except ErrorKind CallResult :=
  if fromFloor < 1 ∨ cfg.totalFloors < fromFloor ∨ toFloor < 1 ∨
      cfg.totalFloors < toFloor then
    (c, Except.error ErrorKind.invalidFloor)
  else if fromFloor = toFloor then
    (c, Except.error ErrorKind.sameFloor)
  else
    let direction :=
      if fromFloor < toFloor then Direction.up else Direction.down
    if (findActiveRequest c.ledger fromFloor direction).isSome then
      (c, Except.error ErrorKind.duplicateRequest)
    else
      let req : Request :=
        { id := c.nextId
          floor := fromFloor
          direction := direction
          elevatorId := Option.none
          priority := priority
          status := ReqStatus.pending
          requestedAt := now
          assignedAt := Option.none
          completedAt := Option.none
          waitTime := Option.none
          destinationFloor := some toFloor }
      let c1 := { c with ledger := c.ledger ++ [req], nextId := c.nextId + 1 }
      match assignElevator cfg c1 req with
      | Except.error err => (c1, Except.error err)
      | Except.ok eid =>
        let c2 := { c1 with ledger := c1.ledger.map (fun r =>
          if r.id = req.id then
            { r with
              elevatorId := some eid
              status := ReqStatus.assigned
              assignedAt := some now }
          else r) }
        match getElevator c2 eid with
        | Option.none => (c2, Except.ok { requestId := req.id, elevatorId := eid })
        | some e =>
          let entry : QueueEntry :=
            { id := req.id
              floor := fromFloor
              direction := direction
              priority := priority
              destinationFloor := some toFloor }
          let c3 := updateElevatorById c2 eid (fun x =>
            { x with queue :=
                List.insertionSort (queueLE e) (e.queue ++ [entry]) })
          (c3, Except.ok { requestId := req.id, elevatorId := eid })

/-- ElevatorService.processIdleState: refill an empty queue from the
scheduling service, then begin moving towards the head entry's floor. -/
def processIdleState (c : Coordinator) (elevatorId : Nat) : Coordinator :=
  match getElevator c elevatorId with
  | Option.none => c
  | some e =>
    let e1 :=
      if e.queue.isEmpty then
        { e with queue := e.queue ++ getNextRequests c.ledger e.id }
      else e
    match e1.queue with
    | [] => updateElevatorById c elevatorId (fun _ => e1)
    | h :: _ =>
      updateElevatorById c elevatorId (fun _ => startMovingToFloor e1 h.floor)

/-- Ascending and descending floor orders used by optimizeElevatorRoute. -/
def entryFloorLE (a b : QueueEntry) : Prop := a.floor ≤ b.floor

instance : DecidableRel entryFloorLE := fun a b => by
  unfold entryFloorLE; infer_instance

def entryFloorGE (a b : QueueEntry) : Prop := b.floor ≤ a.floor

instance : DecidableRel entryFloorGE := fun a b => by
  unfold entryFloorGE; infer_instance

/-- SchedulingService.calculateRouteTime: travel time plus one door
open/close pair per served request, following the given order. -/
def calculateRouteTime (cfg : Config) (startFloor : Int)
    (requests : List QueueEntry) : Int :=
  (requests.foldl
    (fun acc r =>
      (acc.1 + (floorDist r.floor acc.2 : Int) * cfg.floorTravelTime +
        cfg.doorOperationTime * 2, r.floor))
    ((0 : Int), startFloor)).1

/-- The reordered route computed by optimizeElevatorRoute: same-direction
stops first (up stops ascending, down stops descending), order of the two
blocks by the unit's current direction of travel. -/
def optimizeElevatorRouteList (e : Elevator) (requests : List QueueEntry) :
    List QueueEntry :=
  let upRequests := List.insertionSort entryFloorLE
    (requests.filter (fun r => decide (r.direction = Direction.up)))
  let downRequests := List.insertionSort entryFloorGE
    (requests.filter (fun r => decide (r.direction = Direction.down)))
  if e.direction = Direction.up ∨ e.direction = Direction.none then
    upRequests ++ downRequests
  else downRequests ++ upRequests

/-- The timeSaved figure of optimizeElevatorRoute. -/
def optimizeElevatorRouteTimeSaved (cfg : Config) (e : Elevator)
    (requests : List QueueEntry) : Int :=
  max 0 (calculateRouteTime cfg e.currentFloor requests -
    calculateRouteTime cfg e.currentFloor (optimizeElevatorRouteList e requests))

/-- The value returned by SchedulingService.optimizeElevatorRoute: the
source spreads the route array into an object literal, so the caller
receives a plain object carrying numeric index properties and timeSaved,
not an array. -/
structure SpreadRoute where
  indexedEntries : List QueueEntry
  timeSaved : Int
deriving DecidableEq

/-- SchedulingService.optimizeElevatorRoute. -/
def optimizeElevatorRoute (cfg : Config) (e : Elevator)
    (requests : List QueueEntry) : SpreadRoute :=
  { indexedEntries := optimizeElevatorRouteList e requests
    timeSaved := optimizeElevatorRouteTimeSaved cfg e requests }

/-- optimizeRoutes calls optimizedRoute.map on the object returned by
optimizeElevatorRoute; a plain object has no map method, so the call raises
a TypeError. -/
def spreadRouteMapFloors (o : SpreadRoute) : Except ErrorKind (List Int) :=
  Except.error ErrorKind.typeError

/-- One entry of the list optimizeRoutes intends to return. -/
structure RouteReport where
  elevatorId : Nat
  elevatorNumber : Int
  originalRoute : List Int
  optimizedRoute : List Int
  timeSaved : Int
deriving DecidableEq

/-- The loop of SchedulingService.optimizeRoutes over the available
elevators; a raised error aborts the whole loop. -/
def optimizeRoutesGo (cfg : Config) (ledger : List Request) :
    List Elevator → Except ErrorKind (List RouteReport)
  | [] => Except.ok []
  | e :: rest =>
    let requests := getNextRequests ledger e.id
    if 1 < requests.length then
      match spreadRouteMapFloors (optimizeElevatorRoute cfg e requests) with
      | Except.error err => Except.error err
      | Except.ok floors =>
        match optimizeRoutesGo cfg ledger rest with
        | Except.error err => Except.error err
        | Except.ok reports =>
          Except.ok
            ({ elevatorId := e.id
               elevatorNumber := e.number
               originalRoute := requests.map (·.floor)
               optimizedRoute := floors
               timeSaved := (optimizeElevatorRoute cfg e requests).timeSaved }
              :: reports)
    else optimizeRoutesGo cfg ledger rest

/-- SchedulingService.optimizeRoutes: the surrounding try/catch turns any
raised error into an empty result.  No elevator state is written anywhere in
the source of this operation. -/
def optimizeRoutes (cfg : Config) (c : Coordinator) : List RouteReport :=
  match optimizeRoutesGo cfg c.ledger (getAvailableElevators c) with
  | Except.ok reports => reports
  | Except.error _ => []

/-- First spec invariant for an elevator unit: direction is NONE exactly in
IDLE, MAINTENANCE and OUT_OF_SERVICE. -/
def invariantDir (e : Elevator) : Prop :=
  (e.direction = Direction.none) ↔
    (e.state = ElevState.idle ∨ e.state = ElevState.maintenance ∨
      e.state = ElevState.outOfService)

/-- Second spec invariant for an elevator unit: targetFloor is set exactly
in the two moving states. -/
def invariantTarget (e : Elevator) : Prop :=
  e.targetFloor.isSome ↔
    (e.state = ElevState.movingUp ∨ e.state = ElevState.movingDown)

instance (e : Elevator) : Decidable (invariantDir e) := by
  unfold invariantDir; infer_instance

instance (e : Elevator) : Decidable (invariantTarget e) := by
  unfold invariantTarget; infer_instance

/-- Both unit invariants together. -/
def unitInvariant (e : Elevator) : Prop := invariantDir e ∧ invariantTarget e

instance (e : Elevator) : Decidable (unitInvariant e) := by
  unfold unitInvariant; infer_instance

instance exceptDecEq {ε α : Type} [DecidableEq ε] [DecidableEq α] :
    DecidableEq (Except ε α) := fun a b =>
  match a, b with
  | Except.error x, Except.error y =>
    match decEq x y with
    | isTrue h => isTrue (by rw [h])
    | isFalse h => isFalse (by intro hc; injection hc; contradiction)
  | Except.error _, Except.ok _ => isFalse (by intro hc; cases hc)
  | Except.ok _, Except.error _ => isFalse (by intro hc; cases hc)
  | Except.ok x, Except.ok y =>
    match decEq x y with
    | isTrue h => isTrue (by rw [h])
    | isFalse h => isFalse (by intro hc; injection hc; contradiction)

/-! Concrete fixtures used by the scenario theorems. -/

/-- The default configuration: 20 floors, 5000 ms per floor, 2000 ms per
door operation. -/
def cfg20 : Config :=
  { totalFloors := 20, floorTravelTime := 5000, doorOperationTime := 2000 }

/-- A freshly provisioned idle unit. -/
def idleElevator (id : Nat) (number : Int) (floor : Int) : Elevator :=
  { id := id
    number := number
    currentFloor := floor
    targetFloor := Option.none
    state := ElevState.idle
    direction := Direction.none
    doorState := DoorState.closed
    isActive := true
    queue := []
    isMoving := false }

/-- Unit A of the NEAREST scenario: ordinal 1, at floor 1. -/
def unitA : Elevator := idleElevator 1 1 1

/-- Unit B of the NEAREST scenario: ordinal 2, at floor 10. -/
def unitB : Elevator := idleElevator 2 2 10

/-- The request of the NEAREST scenario: boarding floor 2, going up to 3. -/
def req23 : Request :=
  { id := 100
    floor := 2
    direction := Direction.up
    elevatorId := Option.none
    priority := 0
    status := ReqStatus.pending
    requestedAt := 0
    assignedAt := Option.none
    completedAt := Option.none
    waitTime := Option.none
    destinationFloor := some 3 }

/-- C4: under the NEAREST strategy findClosestElevator returns a unit of the
list minimizing distance to the request floor, breaking ties towards the
lowest ordinal number (the list arrives sorted by elevator number); in the
two-unit scenario with unit A at floor 1 and unit B at floor 10, a call
boarding at floor 2 is assigned unit A. -/
theorem nearest_picks_closest_lowest_ordinal :
    (∀ (es : List Elevator) (t : Int), es ≠ [] →
      es.Pairwise (fun a b => a.number < b.number) →
      ∃ r, findClosestElevator es t = some r ∧ r ∈ es ∧
        (∀ e ∈ es, distTo r t ≤ distTo e t) ∧
        (∀ e ∈ es, distTo e t = distTo r t → r.number ≤ e.number)) ∧
    nearestElevatorAlgorithm req23 [unitA, unitB] = some unitA :=
  ⟨findClosestElevator_spec, by decide⟩

/-- Witness for C4: the argmin properties instantiated on the concrete
two-unit scenario. -/
theorem nearest_picks_closest_lowest_ordinal_witness :
    ∃ r, findClosestElevator [unitA, unitB] 2 = some r ∧ r ∈ [unitA, unitB] ∧
      (∀ e ∈ [unitA, unitB], distTo r 2 ≤ distTo e 2) ∧
      (∀ e ∈ [unitA, unitB], distTo e 2 = distTo r 2 → r.number ≤ e.number) :=
  nearest_picks_closest_lowest_ordinal.1 [unitA, unitB] 2 (by decide) (by decide)

/-- A unit caught mid-travel: moving up from floor 2 towards floor 5. -/
def unitMov : Elevator :=
  { id := 3
    number := 3
    currentFloor := 2
    targetFloor := some 5
    state := ElevState.movingUp
    direction := Direction.up
    doorState := DoorState.closed
    isActive := true
    queue := []
    isMoving := true }

/-- C2 counterexample: a moving unit satisfies both invariants, yet
emergencyStop leaves targetFloor set in OUT_OF_SERVICE (breaking the
targetFloor invariant) and setMaintenance leaves direction UP in
MAINTENANCE (breaking the direction invariant). -/
theorem emergencyStop_setMaintenance_break_invariants :
    unitInvariant unitMov ∧
    ¬ invariantTarget (emergencyStopElev unitMov) ∧
    ¬ invariantDir (setMaintenanceElev unitMov) := by decide

/-- C2 amended: startMovingToFloor and the door-cycle transitions (fired
from their respective states) preserve both invariants; emergencyStop
always re-establishes the direction invariant but leaves targetFloor and
the queue untouched; setMaintenance leaves direction and targetFloor
untouched. -/
theorem unit_transitions_invariants (e : Elevator) (t : Int) :
    unitInvariant (startMovingToFloor e t) ∧
    (unitInvariant e →
      e.state = ElevState.movingUp ∨ e.state = ElevState.movingDown →
      unitInvariant (arriveAtFloorElev e)) ∧
    (unitInvariant e → e.state = ElevState.doorOpening →
      unitInvariant (finishDoorOpening e)) ∧
    (unitInvariant e → e.state = ElevState.doorOpen →
      unitInvariant (startClosingDoors e)) ∧
    (unitInvariant e → e.state = ElevState.doorClosing →
      unitInvariant (finishDoorClosingElev e)) ∧
    invariantDir (emergencyStopElev e) ∧
    (emergencyStopElev e).targetFloor = e.targetFloor ∧
    (emergencyStopElev e).queue = e.queue ∧
    (setMaintenanceElev e).direction = e.direction ∧
    (setMaintenanceElev e).targetFloor = e.targetFloor := by
  refine ⟨?_, ?_, ?_, ?_, ?_, ?_, rfl, rfl, rfl, rfl⟩
  · unfold unitInvariant invariantDir invariantTarget startMovingToFloor
    by_cases h : e.currentFloor < t <;> simp [h]
  · intro hinv hst
    obtain ⟨hd, ht⟩ := hinv
    unfold invariantDir at hd
    unfold unitInvariant invariantDir invariantTarget arriveAtFloorElev
    rcases hst with h | h <;> simp_all
  · intro hinv hst
    obtain ⟨hd, ht⟩ := hinv
    unfold invariantDir at hd
    unfold invariantTarget at ht
    unfold unitInvariant invariantDir invariantTarget finishDoorOpening
    simp_all
  · intro hinv hst
    obtain ⟨hd, ht⟩ := hinv
    unfold invariantDir at hd
    unfold invariantTarget at ht
    unfold unitInvariant invariantDir invariantTarget startClosingDoors
    simp_all
  · intro hinv hst
    obtain ⟨hd, ht⟩ := hinv
    unfold invariantDir at hd
    unfold invariantTarget at ht
    unfold unitInvariant invariantDir invariantTarget finishDoorClosingElev
    simp_all
  · unfold invariantDir emergencyStopElev
    simp

/-- A unit whose doors are opening at floor 5 after a trip up. -/
def unitOpening : Elevator :=
  { id := 4
    number := 4
    currentFloor := 5
    targetFloor := Option.none
    state := ElevState.doorOpening
    direction := Direction.up
    doorState := DoorState.opening
    isActive := true
    queue := []
    isMoving := false }

/-- Witness for C2 amended: the door-opening transition applied to a
concrete unit keeps both invariants. -/
theorem unit_transitions_invariants_witness :
    unitInvariant (finishDoorOpening unitOpening) :=
  (unit_transitions_invariants unitOpening 0).2.2.1 (by decide) (by decide)

/-- The ledger row served by the door-closing scenario. -/
def reqInProgress : Request :=
  { id := 7
    floor := 5
    direction := Direction.up
    elevatorId := some 1
    priority := 0
    status := ReqStatus.inProgress
    requestedAt := 100
    assignedAt := some 110
    completedAt := Option.none
    waitTime := Option.none
    destinationFloor := some 9 }

/-- The queue entry mirroring that row on the unit. -/
def entry7 : QueueEntry :=
  { id := 7
    floor := 5
    direction := Direction.up
    priority := 0
    destinationFloor := some 9 }

/-- A unit finishing its door-close at floor 5 with one queued request. -/
def unitClosing : Elevator :=
  { id := 1
    number := 1
    currentFloor := 5
    targetFloor := Option.none
    state := ElevState.doorClosing
    direction := Direction.up
    doorState := DoorState.closing
    isActive := true
    queue := [entry7]
    isMoving := false }

/-- Coordinator state for the door-closing scenario. -/
def cClosing : Coordinator :=
  { elevators := [unitClosing]
    movementTimers := []
    ledger := [reqInProgress]
    algorithm := SchedulingAlgorithm.scan
    nextId := 8 }

/-- C3: the door-close timeout does return the unit to IDLE with doors
CLOSED, direction NONE and the head request popped, but the ledger row is
never marked COMPLETED: completeRequest invokes complete on the unawaited
promise of FloorRequest.findByPk, the raised TypeError is swallowed, and
the row keeps its prior status.  The FloorRequest complete method itself,
had it been reached, would set COMPLETED with wait time equal to
completedAt minus requestedAt. -/
theorem door_close_pops_queue_but_ledger_unchanged :
    getElevator (processDoorClosingFinish cClosing 1) 1 =
      some { unitClosing with
        state := ElevState.idle
        doorState := DoorState.closed
        direction := Direction.none
        queue := [] } ∧
    (processDoorClosingFinish cClosing 1).ledger = [reqInProgress] ∧
    reqInProgress.status ≠ ReqStatus.completed ∧
    (requestComplete reqInProgress 250).status = ReqStatus.completed ∧
    (requestComplete reqInProgress 250).waitTime =
      some (250 - reqInProgress.requestedAt) ∧
    (0 : Int) ≤ 250 - reqInProgress.requestedAt := by decide

/-- First match of a Boolean predicate after updating the stored elevator
under an id-preserving function. -/
theorem getElevator_updateElevatorById (c : Coordinator) (elevatorId : Nat)
    (f : Elevator → Elevator) (hf : ∀ x, (f x).id = x.id) (e : Elevator)
    (h : getElevator c elevatorId = some e) :
    getElevator (updateElevatorById c elevatorId f) elevatorId = some (f e) := by
  unfold getElevator at h
  unfold getElevator updateElevatorById
  simp only [List.find?_map]
  have hp : (fun x => decide (x.id = elevatorId)) ∘
      (fun x => if x.id = elevatorId then f x else x) =
      (fun x => decide (x.id = elevatorId)) := by
    funext x
    by_cases hx : x.id = elevatorId
    · simp [hx, hf]
    · simp [hx]
  rw [hp, h]
  have he : e.id = elevatorId := by
    have := List.find?_some h
    simpa using this
  simp [he]

/-- An id kept out of a timer list by the removal filter. -/
theorem contains_filter_ne (l : List Nat) (elevatorId : Nat) :
    (l.filter (fun i => decide (i ≠ elevatorId))).contains elevatorId = false := by
  simp [List.contains, List.mem_filter]

/-- C6: emergencyStop on a known unit succeeds, puts it OUT_OF_SERVICE with
direction NONE and isActive false, removes its pending movement timer (so
the scheduled arrival can no longer fire), and leaves the queue and the
ledger untouched. -/
theorem emergencyStop_stops_unit (c : Coordinator) (elevatorId : Nat)
    (e : Elevator) (h : getElevator c elevatorId = some e) :
    ∃ c2, emergencyStop c elevatorId = Except.ok c2 ∧
      getElevator c2 elevatorId = some (emergencyStopElev e) ∧
      (emergencyStopElev e).state = ElevState.outOfService ∧
      (emergencyStopElev e).direction = Direction.none ∧
      (emergencyStopElev e).isActive = false ∧
      (emergencyStopElev e).queue = e.queue ∧
      c2.movementTimers.contains elevatorId = false ∧
      fireMovementTimer c2 elevatorId = Option.none ∧
      c2.ledger = c.ledger := by
  unfold emergencyStop
  rw [h]
  refine ⟨_, rfl, ?_, rfl, rfl, rfl, rfl, ?_, ?_, rfl⟩
  · exact getElevator_updateElevatorById _ elevatorId emergencyStopElev
      (fun _ => rfl) e h
  · exact contains_filter_ne c.movementTimers elevatorId
  · unfold fireMovementTimer
    rw [show (updateElevatorById
        { c with movementTimers :=
            c.movementTimers.filter (fun i => decide (i ≠ elevatorId)) }
        elevatorId emergencyStopElev).movementTimers =
        c.movementTimers.filter (fun i => decide (i ≠ elevatorId)) from rfl]
    rw [contains_filter_ne c.movementTimers elevatorId]
    rfl

/-- Coordinator state for the emergency-stop witness: the moving unit has a
pending movement timer. -/
def cMov : Coordinator :=
  { elevators := [unitMov]
    movementTimers := [3]
    ledger := []
    algorithm := SchedulingAlgorithm.scan
    nextId := 1 }

/-- Witness for C6 on a concrete moving unit with a pending timer. -/
theorem emergencyStop_stops_unit_witness :
    ∃ c2, emergencyStop cMov 3 = Except.ok c2 ∧
      getElevator c2 3 = some (emergencyStopElev unitMov) ∧
      (emergencyStopElev unitMov).state = ElevState.outOfService ∧
      (emergencyStopElev unitMov).direction = Direction.none ∧
      (emergencyStopElev unitMov).isActive = false ∧
      (emergencyStopElev unitMov).queue = unitMov.queue ∧
      c2.movementTimers.contains 3 = false ∧
      fireMovementTimer c2 3 = Option.none ∧
      c2.ledger = cMov.ledger :=
  emergencyStop_stops_unit cMov 3 unitMov (by decide)

/-- Two ASSIGNED ledger rows for unit 1, used by the route scenario. -/
def reqRoute3 : Request :=
  { id := 21
    floor := 3
    direction := Direction.up
    elevatorId := some 1
    priority := 0
    status := ReqStatus.assigned
    requestedAt := 10
    assignedAt := some 12
    completedAt := Option.none
    waitTime := Option.none
    destinationFloor := some 9 }

def reqRoute7 : Request :=
  { id := 22
    floor := 7
    direction := Direction.up
    elevatorId := some 1
    priority := 0
    status := ReqStatus.assigned
    requestedAt := 11
    assignedAt := some 13
    completedAt := Option.none
    waitTime := Option.none
    destinationFloor := some 12 }

/-- Coordinator state for the route-optimization scenario: one available
unit with two queued stops in the ledger. -/
def cRoutes : Coordinator :=
  { elevators := [idleElevator 1 1 1]
    movementTimers := []
    ledger := [reqRoute3, reqRoute7]
    algorithm := SchedulingAlgorithm.scan
    nextId := 30 }

/-- C7: with an available unit holding more than one queued stop,
optimizeRoutes returns no entry at all: optimizeElevatorRoute spreads its
route array into a plain object, the map call over that object raises a
TypeError and the surrounding catch returns the empty list.  The timeSaved
the discarded entry would have carried is nonnegative. -/
theorem optimizeRoutes_returns_nothing :
    1 < (getNextRequests cRoutes.ledger 1).length ∧
    optimizeRoutesGo cfg20 cRoutes.ledger (getAvailableElevators cRoutes) =
      Except.error ErrorKind.typeError ∧
    optimizeRoutes cfg20 cRoutes = [] ∧
    0 ≤ (optimizeElevatorRoute cfg20 (idleElevator 1 1 1)
      (getNextRequests cRoutes.ledger 1)).timeSaved := by decide

/-- C10: setMaintenance on a known unit empties its queue, sets MAINTENANCE
and isActive false, and writes nothing to the request ledger: the ledger is
identical afterwards, so every queued request keeps its prior status and no
row becomes CANCELLED. -/
theorem setMaintenance_drops_queue_without_ledger_write (c : Coordinator)
    (elevatorId : Nat) (e : Elevator) (h : getElevator c elevatorId = some e) :
    getElevator (setMaintenance c elevatorId).1 elevatorId =
      some (setMaintenanceElev e) ∧
    (setMaintenanceElev e).queue = [] ∧
    (setMaintenanceElev e).state = ElevState.maintenance ∧
    (setMaintenanceElev e).isActive = false ∧
    (setMaintenance c elevatorId).1.ledger = c.ledger ∧
    (setMaintenance c elevatorId).1.ledger.filter
        (fun r => decide (r.status = ReqStatus.cancelled)) =
      c.ledger.filter (fun r => decide (r.status = ReqStatus.cancelled)) := by
  unfold setMaintenance
  rw [h]
  refine ⟨?_, rfl, rfl, rfl, rfl, rfl⟩
  exact getElevator_updateElevatorById c elevatorId setMaintenanceElev
    (fun _ => rfl) e h

/-- A unit mid-travel with queued work, used by the maintenance witness. -/
def unitBusy : Elevator :=
  { id := 9
    number := 9
    currentFloor := 4
    targetFloor := some 7
    state := ElevState.movingUp
    direction := Direction.up
    doorState := DoorState.closed
    isActive := true
    queue := [entry7]
    isMoving := true }

/-- Coordinator state for the maintenance witness: the queued request is
still IN_PROGRESS in the ledger. -/
def cBusy : Coordinator :=
  { elevators := [unitBusy]
    movementTimers := [9]
    ledger := [reqInProgress]
    algorithm := SchedulingAlgorithm.scan
    nextId := 8 }

/-- Witness for C10 on a concrete busy unit. -/
theorem setMaintenance_drops_queue_without_ledger_write_witness :
    getElevator (setMaintenance cBusy 9).1 9 = some (setMaintenanceElev unitBusy) ∧
    (setMaintenanceElev unitBusy).queue = [] ∧
    (setMaintenanceElev unitBusy).state = ElevState.maintenance ∧
    (setMaintenanceElev unitBusy).isActive = false ∧
    (setMaintenance cBusy 9).1.ledger = cBusy.ledger ∧
    (setMaintenance cBusy 9).1.ledger.filter
        (fun r => decide (r.status = ReqStatus.cancelled)) =
      cBusy.ledger.filter (fun r => decide (r.status = ReqStatus.cancelled)) :=
  setMaintenance_drops_queue_without_ledger_write cBusy 9 unitBusy (by decide)

/-- A single idle unit already standing at floor 2. -/
def unitAt2 : Elevator := idleElevator 1 1 2

/-- Coordinator state for the same-floor scenario. -/
def cSameFloor : Coordinator :=
  { elevators := [unitAt2]
    movementTimers := []
    ledger := []
    algorithm := SchedulingAlgorithm.scan
    nextId := 1 }

/-- C9 counterexample: a valid call boarding at floor 2 with the only unit
already at floor 2 succeeds and enqueues a request whose floor equals the
unit's currentFloor; no guard in callElevator or the dispatch path compares
the boarding floor with the assigned unit's position. -/
theorem callElevator_enqueues_same_floor :
    getElevator (callElevator cfg20 cSameFloor 2 3 0 0).1 1 =
      some { unitAt2 with queue :=
        [{ id := 1
           floor := 2
           direction := Direction.up
           priority := 0
           destinationFloor := some 3 }] } ∧
    unitAt2.currentFloor = 2 ∧
    (callElevator cfg20 cSameFloor 2 3 0 0).2 =
      Except.ok { requestId := 1, elevatorId := 1 } := by decide

/-- C9 amended: CallElevator may enqueue a request at the assigned unit's
current floor; the IDLE-to-MOVING transition computes direction as UP
exactly when the target floor is above the current floor and DOWN otherwise,
so a same-floor head entry produces MOVING_DOWN with targetFloor equal to
currentFloor (zero travel distance), as the concrete same-floor scenario
shows. -/
theorem idle_transition_direction_sign :
    (∀ (e : Elevator) (t : Int),
      (startMovingToFloor e t).direction =
        (if e.currentFloor < t then Direction.up else Direction.down) ∧
      (startMovingToFloor e t).state =
        (if e.currentFloor < t then ElevState.movingUp
          else ElevState.movingDown) ∧
      (startMovingToFloor e t).targetFloor = some t) ∧
    (getElevator
        (processIdleState (callElevator cfg20 cSameFloor 2 3 0 0).1 1) 1).map
        (fun e => (e.state, e.direction, e.targetFloor, e.currentFloor)) =
      some (ElevState.movingDown, Direction.down, some 2, 2) := by
  constructor
  · intro e t
    by_cases h : e.currentFloor < t <;>
      simp [startMovingToFloor, h]
  · decide

/-- Spec-side predicate, following the claim's words for C5: a unit already
moving in the request's direction that can still reach the request floor
without reversing.  Unlike the source filter, idle units do not qualify. -/
def specScanMovingPreferred (req : Request) (e : Elevator) : Bool :=
  (decide (e.direction = Direction.up) && decide (req.direction = Direction.up)
      && decide (e.currentFloor ≤ req.floor)) ||
    (decide (e.direction = Direction.down) &&
      decide (req.direction = Direction.down) &&
      decide (req.floor ≤ e.currentFloor))

/-- A unit moving up through floor 3 towards floor 5. -/
def unitScanMoving : Elevator :=
  { id := 1
    number := 1
    currentFloor := 3
    targetFloor := some 5
    state := ElevState.movingUp
    direction := Direction.up
    doorState := DoorState.closed
    isActive := true
    queue := []
    isMoving := true }

/-- An idle unit parked at floor 4. -/
def unitScanIdle : Elevator := idleElevator 2 2 4

/-- An UP request boarding at floor 5. -/
def reqScan5 : Request :=
  { id := 40
    floor := 5
    direction := Direction.up
    elevatorId := Option.none
    priority := 0
    status := ReqStatus.pending
    requestedAt := 0
    assignedAt := Option.none
    completedAt := Option.none
    waitTime := Option.none
    destinationFloor := some 9 }

/-- C5 counterexample: unit 1 is the only unit moving in the request's
direction able to reach floor 5, yet SCAN selects the idle unit 2, because
the source filter admits idle units as candidates of the preferred set. -/
theorem scan_selects_idle_not_moving :
    scanAlgorithm cfg20 reqScan5 [unitScanMoving, unitScanIdle] =
      some unitScanIdle ∧
    [unitScanMoving, unitScanIdle].filter (specScanMovingPreferred reqScan5) =
      [unitScanMoving] ∧
    unitScanIdle ≠ unitScanMoving ∧
    unitScanIdle.direction = Direction.none := by decide

/-- C5 amended: the preferred set of SCAN consists of the idle units
together with the units moving in the request's direction that have not
passed the request floor; when it is non-empty the closest member wins
(ties to the lowest ordinal), and only when it is empty is every available
unit scored by the simulated full-sweep time and the minimum taken. -/
theorem scanAlgorithm_spec (cfg : Config) (req : Request)
    (available : List Elevator)
    (hsort : available.Pairwise (fun a b => a.number < b.number)) :
    (available.filter (scanCandidate req) ≠ [] →
      ∃ u, scanAlgorithm cfg req available = some u ∧
        u ∈ available.filter (scanCandidate req) ∧
        (∀ e ∈ available.filter (scanCandidate req),
          distTo u req.floor ≤ distTo e req.floor) ∧
        (∀ e ∈ available.filter (scanCandidate req),
          distTo e req.floor = distTo u req.floor → u.number ≤ e.number)) ∧
    (available.filter (scanCandidate req) = [] → available ≠ [] →
      ∃ u, scanAlgorithm cfg req available = some u ∧ u ∈ available ∧
        ∀ e ∈ available,
          calculateScanTime cfg u req.floor req.direction ≤
            calculateScanTime cfg e req.floor req.direction) := by
  constructor
  · intro hne
    have hisEmpty : (available.filter (scanCandidate req)).isEmpty = false := by
      cases hl : available.filter (scanCandidate req) with
      | nil => exact absurd hl hne
      | cons x xs => rfl
    obtain ⟨r, hr, hmem, hmin, htie⟩ :=
      findClosestElevator_spec (available.filter (scanCandidate req)) req.floor
        hne (hsort.filter _)
    refine ⟨r, ?_, hmem, hmin, htie⟩
    unfold scanAlgorithm
    simp only [hisEmpty, Bool.false_eq_true, if_false]
    exact hr
  · intro hnil hne
    have hisEmpty : (available.filter (scanCandidate req)).isEmpty = true := by
      rw [hnil]; rfl
    have hsuit : available.filter
        (fun e => willElevatorEventuallyReach e req.floor req.direction) =
        available := by
      simp [willElevatorEventuallyReach]
    have hperm := List.perm_insertionSort
      (scanTimeLE cfg req.floor req.direction) available
    cases hh : List.insertionSort (scanTimeLE cfg req.floor req.direction)
        available with
    | nil =>
      exfalso
      rw [hh] at hperm
      exact hne (List.Perm.nil_eq hperm).symm
    | cons y ys =>
      have hhead : (List.insertionSort (scanTimeLE cfg req.floor req.direction)
          available).head? = some y := by rw [hh]; rfl
      obtain ⟨hymem, hymin⟩ := head_insertionSort_min
        (fun e => calculateScanTime cfg e req.floor req.direction)
        (scanTimeLE cfg req.floor req.direction) available
        (fun a _ b _ => Iff.rfl) y hhead
      have hsuitEmpty : available.isEmpty = false := by
        cases hl : available with
        | nil => exact absurd hl hne
        | cons x xs => rfl
      refine ⟨y, ?_, hymem, hymin⟩
      unfold scanAlgorithm
      simp only [hisEmpty, if_true, hsuit, hsuitEmpty, Bool.false_eq_true,
        if_false]
      exact hhead

/-- Witness for C5 amended: the preferred-set branch instantiated on the
concrete two-unit scenario. -/
theorem scanAlgorithm_spec_witness :
    ∃ u, scanAlgorithm cfg20 reqScan5 [unitScanMoving, unitScanIdle] = some u ∧
      u ∈ [unitScanMoving, unitScanIdle].filter (scanCandidate reqScan5) ∧
      (∀ e ∈ [unitScanMoving, unitScanIdle].filter (scanCandidate reqScan5),
        distTo u reqScan5.floor ≤ distTo e reqScan5.floor) ∧
      (∀ e ∈ [unitScanMoving, unitScanIdle].filter (scanCandidate reqScan5),
        distTo e reqScan5.floor = distTo u reqScan5.floor →
          u.number ≤ e.number) :=
  (scanAlgorithm_spec cfg20 reqScan5 [unitScanMoving, unitScanIdle]
    (by decide)).1 (by decide)

/-- The efficiency lookAlgorithm assigns to an elevator, as a function of
the ledger. -/
def lookEff (req : Request) (ledger : List Request) (e : Elevator) : Rat :=
  calculateLookEfficiency e req.floor req.direction (getLoad ledger e.id)

/-- Closed form of calculateLookEfficiency: distance times the load factor,
a 20 percent discount when the unit's direction matches the request or is
NONE, and a further 30 percent discount when the request is strictly en
route. -/
theorem lookEfficiency_formula (e : Elevator) (f : Int) (d : Direction)
    (load : Load) :
    calculateLookEfficiency e f d load =
      (floorDist f e.currentFloor : Rat) *
        (1 + ((load.upRequests.length + load.downRequests.length : Nat) : Rat)
          * (1 / 10)) *
        (if e.direction = d ∨ e.direction = Direction.none then (8 : Rat) / 10
          else 1) *
        (if (e.direction = Direction.up ∧ d = Direction.up ∧
              e.currentFloor < f) ∨
            (e.direction = Direction.down ∧ d = Direction.down ∧
              f < e.currentFloor)
          then (7 : Rat) / 10 else 1) := by
  unfold calculateLookEfficiency
  by_cases h2 : e.direction = Direction.up ∧ d = Direction.up ∧
      e.currentFloor < f
  · have h3 : ¬(e.direction = Direction.down ∧ d = Direction.down ∧
        f < e.currentFloor) := by
      intro hc
      rw [h2.1] at hc
      exact absurd hc.1 (by decide)
    by_cases h1 : e.direction = d ∨ e.direction = Direction.none <;>
      simp [h1, h2, h3] <;> ring
  · by_cases h3 : e.direction = Direction.down ∧ d = Direction.down ∧
        f < e.currentFloor <;>
      by_cases h1 : e.direction = d ∨ e.direction = Direction.none <;>
        simp [h1, h2, h3] <;> ring

/-- The only-if direction of the comparator on records whose efficiencies
are either equal (same record) or separated by at least 0.1. -/
theorem lookBefore_iff_of_sep (a b : Scored)
    (hsep : a = b ∨ (1 : Rat) / 10 ≤ |a.efficiency - b.efficiency|) :
    (lookBefore a b ↔ a.efficiency ≤ b.efficiency) := by
  rcases hsep with rfl | hsep
  · unfold lookBefore
    simp
  · unfold lookBefore
    rw [if_neg (not_lt.mpr hsep)]

/-- The head of the lookAlgorithm sort minimizes the efficiency whenever
all scored efficiencies are pairwise separated by at least 0.1. -/
theorem lookAlgorithm_min (cfg : Config) (req : Request)
    (available : List Elevator) (ledger : List Request)
    (hne : available ≠ [])
    (hsep : ∀ a ∈ available, ∀ b ∈ available,
      a = b ∨ (1 : Rat) / 10 ≤ |lookEff req ledger a - lookEff req ledger b|) :
    ∃ u, lookAlgorithm cfg req available ledger = some u ∧ u ∈ available ∧
      ∀ e ∈ available, lookEff req ledger u ≤ lookEff req ledger e := by
  have hpt : ∀ a ∈ available.map (scoreElevator cfg req ledger),
      ∀ b ∈ available.map (scoreElevator cfg req ledger),
      (lookBefore a b ↔ a.efficiency ≤ b.efficiency) := by
    intro a ha b hb
    obtain ⟨ea, hea, rfl⟩ := List.mem_map.mp ha
    obtain ⟨eb, heb, rfl⟩ := List.mem_map.mp hb
    apply lookBefore_iff_of_sep
    rcases hsep ea hea eb heb with heq | hsepd
    · exact Or.inl (by rw [heq])
    · exact Or.inr hsepd
  have hperm := List.perm_insertionSort lookBefore
    (available.map (scoreElevator cfg req ledger))
  cases hh : List.insertionSort lookBefore
      (available.map (scoreElevator cfg req ledger)) with
  | nil =>
    exfalso
    rw [hh] at hperm
    have hmapnil := (List.Perm.nil_eq hperm).symm
    exact hne (List.map_eq_nil_iff.mp hmapnil)
  | cons y ys =>
    have hhead : (List.insertionSort lookBefore
        (available.map (scoreElevator cfg req ledger))).head? = some y := by
      rw [hh]; rfl
    obtain ⟨hymem, hymin⟩ := head_insertionSort_min Scored.efficiency
      lookBefore (available.map (scoreElevator cfg req ledger)) hpt y hhead
    obtain ⟨u, hu, rfl⟩ := List.mem_map.mp hymem
    refine ⟨u, ?_, hu, ?_⟩
    · unfold lookAlgorithm
      simp only [hhead]
      rfl
    · intro e he
      exact hymin (scoreElevator cfg req ledger e)
        (List.mem_map_of_mem (scoreElevator cfg req ledger) he)

/-- The idle unit of the LOOK counterexample: ordinal 1 at floor 10, no
active load. -/
def unitLook1 : Elevator := idleElevator 1 1 10

/-- The idle unit of the LOOK counterexample: ordinal 2 at floor 8, seven
active requests assigned. -/
def unitLook2 : Elevator := idleElevator 2 2 8

/-- One active ledger row assigned to unit 2. -/
def lookRow (id : Nat) (floor : Int) (d : Direction) : Request :=
  { id := id
    floor := floor
    direction := d
    elevatorId := some 2
    priority := 0
    status := ReqStatus.assigned
    requestedAt := 0
    assignedAt := some 1
    completedAt := Option.none
    waitTime := Option.none
    destinationFloor := Option.none }

/-- Seven active rows assigned to unit 2. -/
def lookLedger : List Request :=
  [lookRow 51 2 Direction.up, lookRow 52 3 Direction.up,
   lookRow 53 4 Direction.up, lookRow 54 6 Direction.up,
   lookRow 55 7 Direction.down, lookRow 56 9 Direction.down,
   lookRow 57 11 Direction.down]

/-- The UP request boarding at floor 5 of the LOOK counterexample. -/
def reqLook5 : Request :=
  { id := 60
    floor := 5
    direction := Direction.up
    elevatorId := Option.none
    priority := 0
    status := ReqStatus.pending
    requestedAt := 0
    assignedAt := Option.none
    completedAt := Option.none
    waitTime := Option.none
    destinationFloor := some 12 }

/-- C8 counterexample: unit 1 has strictly smaller efficiency than unit 2
under the code's scoring (4 versus 4.08) and under the claim's formula
(5 versus 5.1, no tie), yet LOOK selects unit 2: the efficiencies differ by
less than 0.1, so the comparator falls back to estimated time, which favors
the closer unit 2. -/
theorem look_band_overrides_minimum :
    lookAlgorithm cfg20 reqLook5 [unitLook1, unitLook2] lookLedger =
      some unitLook2 ∧
    lookEff reqLook5 lookLedger unitLook1 <
      lookEff reqLook5 lookLedger unitLook2 ∧
    unitLook2 ≠ unitLook1 := by decide

/-- C8 amended: the efficiency is distance times (1 + 0.1 times load),
discounted 20 percent when the unit's direction matches the request's or is
NONE, and a further 30 percent when strictly en route; the sort compares by
estimated time whenever two efficiencies differ by less than 0.1, so the
minimum-efficiency unit is only guaranteed selected when all efficiencies
are pairwise separated by at least 0.1. -/
theorem lookAlgorithm_spec :
    (∀ (e : Elevator) (f : Int) (d : Direction) (load : Load),
      calculateLookEfficiency e f d load =
        (floorDist f e.currentFloor : Rat) *
          (1 + ((load.upRequests.length + load.downRequests.length : Nat) : Rat)
            * (1 / 10)) *
          (if e.direction = d ∨ e.direction = Direction.none then (8 : Rat) / 10
            else 1) *
          (if (e.direction = Direction.up ∧ d = Direction.up ∧
                e.currentFloor < f) ∨
              (e.direction = Direction.down ∧ d = Direction.down ∧
                f < e.currentFloor)
            then (7 : Rat) / 10 else 1)) ∧
    (∀ (cfg : Config) (req : Request) (available : List Elevator)
      (ledger : List Request), available ≠ [] →
      (∀ a ∈ available, ∀ b ∈ available,
        a = b ∨ (1 : Rat) / 10 ≤ |lookEff req ledger a - lookEff req ledger b|) →
      ∃ u, lookAlgorithm cfg req available ledger = some u ∧ u ∈ available ∧
        ∀ e ∈ available, lookEff req ledger u ≤ lookEff req ledger e) :=
  ⟨lookEfficiency_formula, lookAlgorithm_min⟩

/-- Witness for C8 amended: two idle units with well-separated efficiencies;
the selected unit minimizes the efficiency. -/
theorem lookAlgorithm_spec_witness :
    ∃ u, lookAlgorithm cfg20 req23 [unitA, unitB] [] = some u ∧
      u ∈ [unitA, unitB] ∧
      ∀ e ∈ [unitA, unitB], lookEff req23 [] u ≤ lookEff req23 [] e :=
  lookAlgorithm_spec.2 cfg20 req23 [unitA, unitB] [] (by decide) (by decide)

/-- Mapping an update that fixes every element of the prefix over a
one-element extension. -/
theorem map_append_singleton (L : List Request) (req newr : Request)
    (upd : Request → Request) (hkeep : ∀ r ∈ L, upd r = r)
    (hnew : upd req = newr) :
    (L ++ [req]).map upd = L ++ [newr] := by
  rw [List.map_append]
  congr 1
  · rw [List.map_congr_left (fun r hr => (hkeep r hr).trans rfl)]
    simp
  · rw [List.map_cons, List.map_nil, hnew]

/-- Active-row counts add over ledger concatenation. -/
theorem countActive_append (L M : List Request) (f : Int) (d : Direction) :
    countActive (L ++ M) f d = countActive L f d + countActive M f d := by
  unfold countActive
  rw [List.filter_append, List.length_append]

/-- A ledger whose duplicate probe comes back empty has no active rows for
the pair. -/
theorem countActive_eq_zero (L : List Request) (f : Int) (d : Direction)
    (h : findActiveRequest L f d = Option.none) : countActive L f d = 0 := by
  unfold findActiveRequest at h
  unfold countActive
  rw [List.filter_eq_nil_iff.mpr (by simpa using List.find?_eq_none.mp h)]
  rfl

/-- At most one active row in a singleton ledger. -/
theorem countActive_singleton_le (r : Request) (f : Int) (d : Direction) :
    countActive [r] f d ≤ 1 := by
  unfold countActive
  by_cases hm : activeMatch f d r = true <;> simp [List.filter, hm]

/-- Ledger shape after a call that passes validation and the duplicate
check: exactly one new row, for the requested (floor, direction) pair, in
an active status (PENDING when dispatch failed, ASSIGNED otherwise). -/
theorem callElevator_shape (cfg : Config) (c : Coordinator)
    (fromFloor toFloor priority now : Int)
    (hvalid : ¬(fromFloor < 1 ∨ cfg.totalFloors < fromFloor ∨ toFloor < 1 ∨
      cfg.totalFloors < toFloor))
    (hneq : fromFloor ≠ toFloor)
    (hnodup : findActiveRequest c.ledger fromFloor
      (if fromFloor < toFloor then Direction.up else Direction.down) =
      Option.none)
    (hfresh : ∀ r ∈ c.ledger, r.id ≠ c.nextId) :
    ∃ rstar,
      (callElevator cfg c fromFloor toFloor priority now).1.ledger =
        c.ledger ++ [rstar] ∧
      rstar.floor = fromFloor ∧
      rstar.direction =
        (if fromFloor < toFloor then Direction.up else Direction.down) ∧
      isActiveStatus rstar.status = true := by
  unfold callElevator
  rw [if_neg hvalid, if_neg hneq]
  simp only [hnodup, Option.isSome_none, Bool.false_eq_true, if_false]
  split
  · exact ⟨_, rfl, rfl, rfl, rfl⟩
  · split
    · exact ⟨_, map_append_singleton _ _ _ _
        (fun r hr => if_neg (by simpa using hfresh r hr)) (if_pos rfl),
        rfl, rfl, rfl⟩
    · exact ⟨_, map_append_singleton _ _ _ _
        (fun r hr => if_neg (by simpa using hfresh r hr)) (if_pos rfl),
        rfl, rfl, rfl⟩

/-- C1: after a first CallElevator for a (floor, direction) pair passes
validation and the duplicate probe (so it creates a row that stays PENDING
when dispatch fails and ASSIGNED otherwise, both active), a second
CallElevator for the same boarding floor and direction fails with
DuplicateRequest without touching the state; the first call adds exactly
one ledger row, and deduplication preserves the at-most-one-active-row
invariant for every (floor, direction) pair. -/
theorem callElevator_dedup (cfg : Config) (c : Coordinator)
    (fromFloor toFloor toFloor2 priority priority2 now now2 : Int)
    (h1 : 1 ≤ fromFloor) (h2 : fromFloor ≤ cfg.totalFloors)
    (h3 : 1 ≤ toFloor) (h4 : toFloor ≤ cfg.totalFloors)
    (h5 : fromFloor ≠ toFloor)
    (h6 : 1 ≤ toFloor2) (h7 : toFloor2 ≤ cfg.totalFloors)
    (h8 : fromFloor ≠ toFloor2)
    (hdir : fromFloor < toFloor ↔ fromFloor < toFloor2)
    (hnodup : findActiveRequest c.ledger fromFloor
      (if fromFloor < toFloor then Direction.up else Direction.down) =
      Option.none)
    (hfresh : ∀ r ∈ c.ledger, r.id ≠ c.nextId) :
    callElevator cfg (callElevator cfg c fromFloor toFloor priority now).1
        fromFloor toFloor2 priority2 now2 =
      ((callElevator cfg c fromFloor toFloor priority now).1,
        Except.error ErrorKind.duplicateRequest) ∧
    (callElevator cfg c fromFloor toFloor priority now).1.ledger.length =
      c.ledger.length + 1 ∧
    (atMostOneActive c.ledger →
      atMostOneActive
        (callElevator cfg c fromFloor toFloor priority now).1.ledger) := by
  have hvalid : ¬(fromFloor < 1 ∨ cfg.totalFloors < fromFloor ∨ toFloor < 1 ∨
      cfg.totalFloors < toFloor) := by omega
  have hvalid2 : ¬(fromFloor < 1 ∨ cfg.totalFloors < fromFloor ∨
      toFloor2 < 1 ∨ cfg.totalFloors < toFloor2) := by omega
  obtain ⟨rstar, hled, hfl, hdr, hact⟩ :=
    callElevator_shape cfg c fromFloor toFloor priority now hvalid h5 hnodup
      hfresh
  have hd2 : (if fromFloor < toFloor2 then Direction.up else Direction.down) =
      (if fromFloor < toFloor then Direction.up else Direction.down) := by
    by_cases h : fromFloor < toFloor
    · rw [if_pos (hdir.mp h), if_pos h]
    · rw [if_neg (fun hc => h (hdir.mpr hc)), if_neg h]
  have hmatch : activeMatch fromFloor
      (if fromFloor < toFloor then Direction.up else Direction.down) rstar =
      true := by
    unfold activeMatch
    rw [hfl, hdr, hact]
    simp
  generalize hG : (callElevator cfg c fromFloor toFloor priority now).1 = s1
    at hled ⊢
  have hfind2 : (findActiveRequest s1.ledger fromFloor
      (if fromFloor < toFloor then Direction.up else Direction.down)).isSome =
      true := by
    rw [hled]
    unfold findActiveRequest
    exact List.find?_isSome.mpr
      ⟨rstar, List.mem_append_right _ (List.mem_singleton_self rstar), hmatch⟩
  refine ⟨?_, ?_, ?_⟩
  · simp only [callElevator]
    rw [if_neg hvalid2, if_neg h8, hd2, hfind2]
    simp
  · rw [hled]
    simp
  · intro hatmost f0 d0
    rw [hled, countActive_append]
    cases hx : activeMatch f0 d0 rstar with
    | true =>
      have hparts : (rstar.floor = f0 ∧ rstar.direction = d0) ∧
          isActiveStatus rstar.status = true := by
        unfold activeMatch at hx
        simpa using hx
      have hf0 : f0 = fromFloor := hparts.1.1 ▸ hfl
      have hd0 : d0 =
          (if fromFloor < toFloor then Direction.up else Direction.down) :=
        hparts.1.2 ▸ hdr
      have hzero : countActive c.ledger f0 d0 = 0 := by
        rw [hf0, hd0]
        exact countActive_eq_zero _ _ _ hnodup
      have hone := countActive_singleton_le rstar f0 d0
      omega
    | false =>
      have hzero : countActive [rstar] f0 d0 = 0 := by
        unfold countActive
        simp [List.filter_cons, hx]
      have hle := hatmost f0 d0
      omega

/-- Coordinator for the dedup scenario: one idle unit at floor 1, empty
ledger. -/
def cDedup : Coordinator :=
  { elevators := [idleElevator 1 1 1]
    movementTimers := []
    ledger := []
    algorithm := SchedulingAlgorithm.scan
    nextId := 1 }

/-- Witness for C1: call(1,5) then call(1,6), both UP from floor 1; the
second returns DuplicateRequest and the state is unchanged by it. -/
theorem callElevator_dedup_witness :
    callElevator cfg20 (callElevator cfg20 cDedup 1 5 0 0).1 1 6 0 1 =
      ((callElevator cfg20 cDedup 1 5 0 0).1,
        Except.error ErrorKind.duplicateRequest) ∧
    (callElevator cfg20 cDedup 1 5 0 0).1.ledger.length =
      cDedup.ledger.length + 1 ∧
    (atMostOneActive cDedup.ledger →
      atMostOneActive (callElevator cfg20 cDedup 1 5 0 0).1.ledger) :=
  callElevator_dedup cfg20 cDedup 1 5 6 0 0 0 1 (by decide) (by decide)
    (by decide) (by decide) (by decide) (by decide) (by decide) (by decide)
    (by decide) (by decide) (by decide)

end ElevatorAPI
